import Mathlib

/-!
Shallow embedding of `server/service.go` from the mev-boost repository.

The file models the four consensus-facing HTTP handlers of `BoostService`
(`handleStatus`, `handleRegisterValidator`, `handleGetHeader`,
`handleGetPayload`), the exported `CheckRelays` operation, and the bid
cache with its cleanup task.

Modelling conventions:
* Go goroutines that fan out one task per relay are modelled by a list of
  per-task inputs given in the order in which the tasks complete and
  acquire the shared mutex; the handler is then a pure fold over that
  list.  Quantifying theorems over all such lists quantifies over all
  interleavings.
* `SendHTTPRequest` and `types.VerifySignature` are external calls; their
  results are inputs of the model (an `Option` outcome per task, and a
  `verify` function parameter).
* Go nil-able pointers become `Option`; the Go zero value of a struct is a
  named constant.
* `types.Hash`, `types.PublicKey`, signatures and domains are kept in
  their rendered string form, since the code compares them (`.String()`
  or byte equality, which coincide); `types.U256Str` values are `Nat`,
  since the code only compares them with `Cmp` and against `"0"`.
* Wall-clock times are `Nat` seconds supplied as parameters; `time.Since t`
  at time `now` is `now - t`.
-/

set_option autoImplicit false

namespace MevBoost

/-- `types.Hash` in its `.String()` form (`"0x"` + 64 hex chars).
The zero hash `types.Hash{}` renders as `nilHash`. -/
abbrev Hash := String

/-- `var nilHash = types.Hash{}`, in rendered form. -/
def nilHash : Hash := "0x0000000000000000000000000000000000000000000000000000000000000000"

/-- The empty-transaction-list sentinel compared against
`TransactionsRoot.String()` in `handleGetHeader`. -/
def emptyTxRoot : Hash := "0x7ffe241ea60187fdb0187bfa22de35d1f9bed7ab061d9401fd47e34a54fbede1"

/-- `types.PublicKey` in rendered form. -/
abbrev PublicKey := String

/-- `types.Signature` in rendered form. -/
abbrev Signature := String

/-- `types.Domain` (the builder signing domain), abstract. -/
abbrev Domain := String

/-- A relay descriptor (`RelayEntry`): its parsed public key and its
`String()` rendering used for logging and the relays-per-blockhash map. -/
structure RelayEntry where
  publicKey : PublicKey
  str : String
  deriving DecidableEq, Repr

/-- `types.ExecutionPayloadHeader`, restricted to the fields the service
reads. -/
structure ExecutionPayloadHeader where
  parentHash : Hash
  blockHash : Hash
  blockNumber : Nat
  transactionsRoot : Hash
  deriving DecidableEq, Repr

/-- `types.BuilderBid` (the `Message` of a signed builder bid). -/
structure BuilderBid where
  header : Option ExecutionPayloadHeader
  value : Nat
  pubkey : PublicKey
  deriving DecidableEq, Repr

/-- `types.SignedBuilderBid` (`Data` of a `GetHeaderResponse`). -/
structure SignedBuilderBid where
  message : Option BuilderBid
  signature : Signature
  deriving DecidableEq, Repr

/-- `types.GetHeaderResponse`. -/
structure GetHeaderResponse where
  data : Option SignedBuilderBid
  deriving DecidableEq, Repr

/-- The zero value `types.GetHeaderResponse{}` (all pointers nil). -/
def GetHeaderResponse.empty : GetHeaderResponse := ⟨none⟩

/-- `strconv.ParseUint(s, 10, 64)`: accepts a non-empty all-digit string
whose value fits in 64 bits; rejects anything else (signs, empty string,
non-digits, out-of-range values). -/
def parseUint64 (s : String) : Option Nat :=
  if s.data.isEmpty then none
  else if s.data.all Char.isDigit then
    let n := s.data.foldl (fun acc c => acc * 10 + (c.toNat - 48)) 0
    if n < 2 ^ 64 then some n else none
  else none

/-- Result of `types.VerifySignature(message, domain, pubkey, signature)`:
`none` models a non-nil error, `some ok` models `(ok, nil)`. -/
abbrev VerifyFn := BuilderBid → Domain → PublicKey → Signature → Option Bool

/-- The outcome of one relay's `SendHTTPRequest` in the get-header fan-out:
`none` models a non-nil transport error, `some (code, payload)` the
returned status code together with the decoded payload (which stays at
its zero value on a 204). -/
structure HeaderTask where
  relay : RelayEntry
  outcome : Option (Nat × GetHeaderResponse)
  deriving DecidableEq, Repr

/-- The acceptance pipeline of one get-header goroutine (the sequence of
early `return`s between the `SendHTTPRequest` call and `mu.Lock()` in
`handleGetHeader`): transport error, 204, nil payload fields or zero
block hash, bid pubkey mismatch, signature verification error or failure,
parent-hash mismatch, zero value or empty-transaction-list root.  Returns
the response that enters the selection critical section, if any. -/
def processHeaderTask (verify : VerifyFn) (domain : Domain)
    (parentHashHex : String) (t : HeaderTask) :
    Option (RelayEntry × GetHeaderResponse) :=
  match t.outcome with
  | none => none
  | some (code, responsePayload) =>
    if code = 204 then none
    else match responsePayload.data with
    | none => none
    | some data =>
      match data.message with
      | none => none
      | some message =>
        match message.header with
        | none => none
        | some header =>
          if header.blockHash = nilHash then none
          else if t.relay.publicKey ≠ message.pubkey then none
          else match verify message domain t.relay.publicKey data.signature with
          | none => none
          | some ok =>
            if !ok then none
            else if header.parentHash ≠ parentHashHex then none
            else if message.value = 0 ∨ header.transactionsRoot = emptyTxRoot then none
            else some (t.relay, responsePayload)

/-- `Data.Message.Header.BlockHash.String()` of a response, defaulting the
nil-pointer chain (only used on responses that passed the nil checks). -/
def respBlockHash (r : GetHeaderResponse) : Hash :=
  (((r.data.bind (·.message)).bind (·.header)).map (·.blockHash)).getD ""

/-- `Data.Message.Value` of a response, defaulting to 0. -/
def respValue (r : GetHeaderResponse) : Nat :=
  ((r.data.bind (·.message)).map (·.value)).getD 0

/-- `bidRespKey`: the bid-cache key `(slot, blockHash)`. -/
structure bidRespKey where
  slot : Nat
  blockHash : String
  deriving DecidableEq, Repr

/-- `bidResp`: a cached bid record. -/
structure bidResp where
  t : Nat
  response : GetHeaderResponse
  blockHash : String
  relays : List String
  deriving DecidableEq, Repr

/-- The Go zero value `bidResp{}` — the neutral empty record a map read
returns on a miss. -/
def bidResp.empty : bidResp := ⟨0, GetHeaderResponse.empty, "", []⟩

/-- `m.bids : map[bidRespKey]bidResp`, as its lookup function (`none`
models an absent key; Go map keys are unique). -/
abbrev BidCache := bidRespKey → Option bidResp

/-- `m.bids[k] = v` (insert or overwrite). -/
def BidCache.store (c : BidCache) (k : bidRespKey) (v : bidResp) : BidCache :=
  fun k' => if k' = k then some v else c k'

/-- `m.bids[k]` read: a miss yields the zero value, never an error. -/
def BidCache.load (c : BidCache) (k : bidRespKey) : bidResp :=
  (c k).getD bidResp.empty

/-- The sweep interval of `startBidCacheCleanupTask`
(`time.Sleep(1 * time.Minute)`), in seconds. -/
def bidCacheSweepInterval : Nat := 60

/-- The retention bound of `startBidCacheCleanupTask`
(`time.Since(bidResp.t) > 3*time.Minute` deletes), in seconds. -/
def bidCacheRetention : Nat := 180

/-- One iteration of the cleanup loop body at wall-clock second `now`:
delete every entry whose age exceeds `bidCacheRetention`. -/
def bidCacheSweep (now : Nat) (c : BidCache) : BidCache :=
  fun k => match c k with
  | none => none
  | some v => if now - v.t > bidCacheRetention then none else some v

/-- The shared auction state of `handleGetHeader` protected by `mu`:
the `relays` map from block hash to the relay strings that delivered it
(a Go map read at a missing key yields the empty slice, so the map is
its total lookup function), and the `result` bid (zero-valued until the
first accepted bid arrives). -/
structure AuctionState where
  relays : Hash → List String
  result : bidResp

/-- The critical section of one get-header goroutine (lines between
`mu.Lock()` and the end of the goroutine): record the delivering relay
under the bid's block hash, then replace `result` unless a result is
already present whose value is not exceeded
(`result.response.Data != nil && value.Cmp(current) < 1` skips). -/
def auctionStep (now : Nat) (st : AuctionState)
    (rb : RelayEntry × GetHeaderResponse) : AuctionState :=
  let blockHash := respBlockHash rb.2
  let relays' : Hash → List String :=
    fun h => if h = blockHash then st.relays h ++ [rb.1.str] else st.relays h
  if st.result.response.data.isSome ∧ respValue rb.2 ≤ respValue st.result.response then
    { st with relays := relays' }
  else
    { relays := relays'
      result := { st.result with response := rb.2, blockHash := blockHash, t := now } }

/-- The initial auction state: empty `relays` map and zero-valued
`result`. -/
def initAuctionState : AuctionState := ⟨fun _ => [], bidResp.empty⟩

/-- The bids that enter the selection critical section, in
mutex-acquisition order: each task's outcome run through the acceptance
pipeline. -/
def acceptedBids (verify : VerifyFn) (domain : Domain) (parentHashHex : String)
    (tasks : List HeaderTask) : List (RelayEntry × GetHeaderResponse) :=
  tasks.filterMap (processHeaderTask verify domain parentHashHex)

/-- Folding every accepted bid through the critical section, starting
from the empty shared state. -/
def runAuction (now : Nat) (accepted : List (RelayEntry × GetHeaderResponse)) :
    AuctionState :=
  accepted.foldl (auctionStep now) initAuctionState

/-- The reply `handleGetHeader` writes to the proposer. -/
inductive GetHeaderReply where
  | badRequest (message : String)
  | noContent
  | ok (response : GetHeaderResponse)
  deriving DecidableEq, Repr

/-- Observable outcome of `handleGetHeader`: the HTTP reply, the bid
cache after the handler, and the relays contacted by the fan-out. -/
structure GetHeaderOutput where
  reply : GetHeaderReply
  bids : BidCache
  contacted : List RelayEntry

/-- `handleGetHeader`, given the URL parameters, the per-relay task
outcomes in mutex-acquisition order, the wall-clock time and the bid
cache.  Validates `slot` / `pubkey` / `parent_hash`, folds the accepted
bids through the critical section, then replies 204 when no bid was kept
or stores and returns the best bid. -/
def handleGetHeader (verify : VerifyFn) (domain : Domain) (now : Nat)
    (slot parentHashHex pubkey : String)
    (tasks : List HeaderTask) (bids : BidCache) : GetHeaderOutput :=
  match parseUint64 slot with
  | none => ⟨.badRequest "invalid slot", bids, []⟩
  | some _slot =>
    if pubkey.length ≠ 98 then ⟨.badRequest "invalid pubkey", bids, []⟩
    else if parentHashHex.length ≠ 66 then ⟨.badRequest "invalid hash", bids, []⟩
    else
      let st := runAuction now (acceptedBids verify domain parentHashHex tasks)
      if st.result.blockHash = "" then
        ⟨.noContent, bids, tasks.map (·.relay)⟩
      else
        let result := { st.result with relays := st.relays st.result.blockHash }
        let bidKey : bidRespKey := ⟨_slot, result.blockHash⟩
        ⟨.ok result.response, bids.store bidKey result, tasks.map (·.relay)⟩

/-- The execution-payload data of a `types.GetPayloadResponse`, restricted
to the field the service reads. -/
structure ExecutionPayload where
  blockHash : Hash
  deriving DecidableEq, Repr

/-- `types.GetPayloadResponse`. -/
structure GetPayloadResponse where
  data : Option ExecutionPayload
  deriving DecidableEq, Repr

/-- The zero value `types.GetPayloadResponse{}` — the shared `result`
before any relay wrote to it. -/
def GetPayloadResponse.empty : GetPayloadResponse := ⟨none⟩

/-- The outcome of one relay's `SendHTTPRequest` in the get-payload
fan-out: `none` models a non-nil error (a transport failure or a request
curtailed by cancellation of the shared context), `some payload` the
decoded response. -/
structure PayloadTask where
  relay : RelayEntry
  outcome : Option GetPayloadResponse
  deriving DecidableEq, Repr

/-- The shared state of the get-payload race: the `result` the winning
goroutine writes under `mu`, and whether `requestCtxCancel` has been
called (`requestCtx.Err() != nil`). -/
structure PayloadState where
  result : GetPayloadResponse
  cancelled : Bool
  deriving DecidableEq, Repr

/-- One get-payload goroutine, in mutex-acquisition order: drop on
transport error, on empty data or zero block hash, and on a block hash
differing from the request's; otherwise take the mutex, re-check
cancellation, and on an uncancelled context cancel it and write the
shared result. -/
def payloadStep (requestBlockHash : Hash) (st : PayloadState)
    (t : PayloadTask) : PayloadState :=
  match t.outcome with
  | none => st
  | some responsePayload =>
    match responsePayload.data with
    | none => st
    | some data =>
      if data.blockHash = nilHash then st
      else if requestBlockHash ≠ data.blockHash then st
      else if st.cancelled then st
      else ⟨responsePayload, true⟩

/-- The validation part of one get-payload goroutine, before the mutex:
`none` when the task drops its response (transport error, empty data,
zero block hash, or block-hash mismatch with the request), `some` the
response it carries into the critical section. -/
def payloadTaskPass (requestBlockHash : Hash) (t : PayloadTask) :
    Option GetPayloadResponse :=
  match t.outcome with
  | none => none
  | some responsePayload =>
    match responsePayload.data with
    | none => none
    | some data =>
      if data.blockHash = nilHash then none
      else if requestBlockHash ≠ data.blockHash then none
      else some responsePayload

/-- The reply `handleGetPayload` writes to the proposer. -/
inductive GetPayloadReply where
  | ok (response : GetPayloadResponse)
  | badGateway
  deriving DecidableEq, Repr

/-- Observable outcome of `handleGetPayload`: the HTTP reply and, in the
withholding branch, the relay strings logged from the cached bid
record. -/
structure GetPayloadOutput where
  reply : GetPayloadReply
  loggedRelays : Option (List String)
  deriving DecidableEq, Repr

/-- `handleGetPayload` after JSON decoding, given the request's `slot`
and `execution_payload_header.block_hash`, the per-relay task outcomes in
mutex-acquisition order and the bid cache.  All tasks are folded (the
handler waits on the `WaitGroup` before replying); if no payload was
received the original bid record is loaded from the cache, its relays are
logged, and the reply is 502. -/
def handleGetPayload (slot : Nat) (requestBlockHash : Hash)
    (tasks : List PayloadTask) (bids : BidCache) : GetPayloadOutput :=
  let st := tasks.foldl (payloadStep requestBlockHash) ⟨GetPayloadResponse.empty, false⟩
  match st.result.data with
  | none =>
    let bidKey : bidRespKey := ⟨slot, requestBlockHash⟩
    ⟨.badGateway, some (bids.load bidKey).relays⟩
  | some data =>
    if data.blockHash = nilHash then
      let bidKey : bidRespKey := ⟨slot, requestBlockHash⟩
      ⟨.badGateway, some (bids.load bidKey).relays⟩
    else
      ⟨.ok st.result, none⟩

/-- The shared state of `handleStatus` when `relayCheck` is enabled: the
atomic success counter and whether the shared cancellable context has
been cancelled. -/
structure StatusState where
  numSuccessRequestsToRelay : Nat
  cancelled : Bool
  deriving DecidableEq, Repr

/-- One status goroutine, in completion order.  `ok` is whether its
`SendHTTPRequest` returned a nil error (a 2xx response).  The goroutine
returns early only when the request failed and the shared context is not
cancelled; otherwise it increments the counter and cancels the shared
context. -/
def statusStep (st : StatusState) (ok : Bool) : StatusState :=
  if ¬ok ∧ ¬st.cancelled then st
  else ⟨st.numSuccessRequestsToRelay + 1, true⟩

/-- The reply `handleStatus` writes. -/
inductive StatusReply where
  | ok
  | serviceUnavailable
  deriving DecidableEq, Repr

/-- Observable outcome of `handleStatus`: the reply, whether the handler
fanned out to the relays at all, and the final counter value. -/
structure StatusOutput where
  reply : StatusReply
  fannedOut : Bool
  numSuccessRequestsToRelay : Nat
  deriving DecidableEq, Repr

/-- `handleStatus`, given the `relayCheck` flag and the per-relay request
outcomes in completion order.  Disabled: reply OK at once without
contacting any relay.  Enabled: fold all goroutines, wait for every one,
then reply OK when the counter is positive and 503 otherwise. -/
def handleStatus (relayCheck : Bool) (outcomes : List Bool) : StatusOutput :=
  if ¬relayCheck then ⟨.ok, false, 0⟩
  else
    let st := outcomes.foldl statusStep ⟨0, false⟩
    if st.numSuccessRequestsToRelay > 0 then ⟨.ok, true, st.numSuccessRequestsToRelay⟩
    else ⟨.serviceUnavailable, true, st.numSuccessRequestsToRelay⟩

/-- A Go `context.Context` as the service uses it: the non-cancellable
background context, or a cancellable context in a given cancellation
state. -/
inductive Ctx where
  | background
  | withCancel (cancelled : Bool)
  deriving DecidableEq, Repr

/-- The context each `handleRegisterValidator` goroutine passes to
`SendHTTPRequest` (`context.Background()`): registrations are never
cancelled on a peer's success. -/
def registerValidatorTaskCtx : Ctx := Ctx.background

/-- `make(chan error, len(m.relays))`: the capacity of the result channel
of `handleRegisterValidator`. -/
def relayRespChCapacity (relays : List RelayEntry) : Nat := relays.length

/-- The reply `handleRegisterValidator` writes. -/
inductive RegisterReply where
  | ok
  | badGateway
  deriving DecidableEq, Repr

/-- The drain loop of `handleRegisterValidator`: receive up to
`len(m.relays)` errors from the channel (in channel order, one per
relay), reply OK at the first nil error, and reply 502 when every relay
reported an error.  Returns the reply together with the number of
channel receives performed before replying. -/
def drainRegisterResponses : List (Option String) → RegisterReply × Nat
  | [] => (.badGateway, 0)
  | none :: _ => (.ok, 1)
  | some _ :: rest =>
    ((drainRegisterResponses rest).1, (drainRegisterResponses rest).2 + 1)

/-- `handleRegisterValidator` after JSON decoding, given each relay
task's error (`none` for nil) in the order the results are received from
the channel. -/
def handleRegisterValidator (outcomes : List (Option String)) : RegisterReply :=
  (drainRegisterResponses outcomes).1

/-- `CheckRelays`: query each relay's status endpoint sequentially
(`ok` is whether `SendHTTPRequest` returned a nil error) and stop at the
first failure.  Returns the verdict together with the number of relays
contacted. -/
def CheckRelays : List Bool → Bool × Nat
  | [] => (true, 0)
  | false :: _ => (false, 1)
  | true :: rest => ((CheckRelays rest).1, (CheckRelays rest).2 + 1)

/-! ### Concrete fixtures

Small closed inputs used to evaluate the model on concrete runs. -/

/-- A verifier that accepts every signature. -/
def exVerify : VerifyFn := fun _ _ _ _ => some true

/-- A fixed builder signing domain. -/
def exDomain : Domain := "0x00000001"

/-- A well-shaped `parent_hash` URL parameter (66 characters). -/
def exParentHash : String := "0x" ++ String.mk (List.replicate 64 'a')

/-- A well-shaped `pubkey` URL parameter (98 characters). -/
def exPubkeyParam : String := "0x" ++ String.mk (List.replicate 96 'b')

/-- First example relay. -/
def exRelay1 : RelayEntry := ⟨"0xrelay1pubkey", "https://relay1"⟩

/-- Second example relay. -/
def exRelay2 : RelayEntry := ⟨"0xrelay2pubkey", "https://relay2"⟩

/-- An example header response from a relay, with the given bid pubkey,
block hash and value, matching `exParentHash`. -/
def exResponse (pk : PublicKey) (bh : Hash) (v : Nat) : GetHeaderResponse :=
  ⟨some ⟨some ⟨some ⟨exParentHash, bh, 1, "0xtxroot"⟩, v, pk⟩, "0xsig"⟩⟩

/-- Relay 1 delivers a value-1 bid for block `0xb1`. -/
def exTask1 : HeaderTask :=
  ⟨exRelay1, some (200, exResponse exRelay1.publicKey "0xb1" 1)⟩

/-- Relay 2 delivers a value-2 bid for block `0xb2`. -/
def exTask2 : HeaderTask :=
  ⟨exRelay2, some (200, exResponse exRelay2.publicKey "0xb2" 2)⟩

/-- A two-relay auction. -/
def exTasks : List HeaderTask := [exTask1, exTask2]

/-- The empty bid cache. -/
def exEmptyCache : BidCache := fun _ => none

/-- An example cached bid record for block `0xb1`, stored at time 10. -/
def exRecord : bidResp :=
  ⟨10, exResponse exRelay1.publicKey "0xb1" 1, "0xb1", ["https://relay1"]⟩

/-- A cache holding `exRecord` under slot 42 and block `0xb1`. -/
def exCache42 : BidCache :=
  fun k => if k = ⟨42, "0xb1"⟩ then some exRecord else none

/-- An example payload response carrying block hash `bh`. -/
def exPayloadResponse (bh : Hash) : GetPayloadResponse := ⟨some ⟨bh⟩⟩

/-- Relay 1 returns the payload for block `0xb1`. -/
def exPayloadTask1 : PayloadTask := ⟨exRelay1, some (exPayloadResponse "0xb1")⟩

/-- Relay 2 also returns the payload for block `0xb1`. -/
def exPayloadTask2 : PayloadTask := ⟨exRelay2, some (exPayloadResponse "0xb1")⟩

/-! ## Shared lemmas -/

lemma mem_acceptedBids {verify : VerifyFn} {domain : Domain}
    {parentHashHex : String} {tasks : List HeaderTask}
    {rb : RelayEntry × GetHeaderResponse} :
    rb ∈ acceptedBids verify domain parentHashHex tasks ↔
      ∃ t, t ∈ tasks ∧ processHeaderTask verify domain parentHashHex t = some rb := by
  simp [acceptedBids, List.mem_filterMap]

lemma processHeaderTask_char (verify : VerifyFn) (domain : Domain)
    (parentHashHex : String) (t : HeaderTask) (relay : RelayEntry)
    (rp : GetHeaderResponse)
    (h : processHeaderTask verify domain parentHashHex t = some (relay, rp)) :
    relay = t.relay ∧
    ∃ data message header,
      rp.data = some data ∧ data.message = some message ∧
      message.header = some header ∧
      header.blockHash ≠ nilHash ∧
      message.pubkey = t.relay.publicKey ∧
      verify message domain t.relay.publicKey data.signature = some true ∧
      header.parentHash = parentHashHex ∧
      message.value ≠ 0 ∧
      header.transactionsRoot ≠ emptyTxRoot := by
  unfold processHeaderTask at h
  repeat (split at h <;> try exact Option.noConfusion h)
  rw [Option.some_inj, Prod.ext_iff] at h
  obtain ⟨h1, h2⟩ := h
  dsimp only at h1 h2
  subst h1 h2
  aesop

lemma statusStep_num_le (st : StatusState) (b : Bool) :
    st.numSuccessRequestsToRelay ≤ (statusStep st b).numSuccessRequestsToRelay := by
  unfold statusStep
  split
  · exact le_refl _
  · exact Nat.le_succ _

lemma statusStep_cancelled_true (st : StatusState) (b : Bool)
    (h : st.cancelled = true) : (statusStep st b).cancelled = true := by
  unfold statusStep
  split
  · exact h
  · rfl

lemma statusFold_num_le : ∀ (l : List Bool) (st : StatusState),
    st.numSuccessRequestsToRelay ≤
      (l.foldl statusStep st).numSuccessRequestsToRelay
  | [], _ => le_refl _
  | b :: rest, st =>
    le_trans (statusStep_num_le st b) (statusFold_num_le rest (statusStep st b))

lemma statusFold_all_false : ∀ (l : List Bool), (∀ b ∈ l, b = false) →
    l.foldl statusStep ⟨0, false⟩ = ⟨0, false⟩
  | [], _ => rfl
  | b :: rest, h => by
    have hb : b = false := h b (List.mem_cons_self ..)
    subst hb
    have hs : statusStep ⟨0, false⟩ false = ⟨0, false⟩ := by simp [statusStep]
    simp only [List.foldl_cons, hs]
    exact statusFold_all_false rest (fun x hx => h x (List.mem_cons_of_mem _ hx))

lemma statusFold_pos : ∀ (l : List Bool) (st : StatusState),
    true ∈ l ∨ 0 < st.numSuccessRequestsToRelay →
    0 < (l.foldl statusStep st).numSuccessRequestsToRelay
  | [], st, h => by
    rcases h with h | h
    · exact absurd h (List.not_mem_nil _)
    · exact h
  | b :: rest, st, h => by
    rcases h with h | h
    · rcases List.mem_cons.mp h with hb | h2
      · subst hb
        exact statusFold_pos rest _ (Or.inr (by simp [statusStep]))
      · exact statusFold_pos rest _ (Or.inl h2)
    · exact statusFold_pos rest _
        (Or.inr (lt_of_lt_of_le h (statusStep_num_le st b)))

lemma statusFold_pos_iff (l : List Bool) :
    0 < (l.foldl statusStep ⟨0, false⟩).numSuccessRequestsToRelay ↔
      ∃ b ∈ l, b = true := by
  constructor
  · intro h
    by_contra hne
    have hall : ∀ b ∈ l, b = false := by
      intro b hb
      cases b
      · rfl
      · exact absurd ⟨true, hb, rfl⟩ hne
    rw [statusFold_all_false l hall] at h
    exact absurd h (by simp)
  · rintro ⟨b, hb, rfl⟩
    exact statusFold_pos l _ (Or.inl hb)

lemma statusFold_cancelled_of : ∀ (l : List Bool) (st : StatusState),
    true ∈ l ∨ st.cancelled = true →
    (l.foldl statusStep st).cancelled = true
  | [], _, h => by
    rcases h with h | h
    · exact absurd h (List.not_mem_nil _)
    · exact h
  | b :: rest, st, h => by
    rcases h with h | h
    · rcases List.mem_cons.mp h with hb | h2
      · subst hb
        exact statusFold_cancelled_of rest _ (Or.inr (by simp [statusStep]))
      · exact statusFold_cancelled_of rest _ (Or.inl h2)
    · exact statusFold_cancelled_of rest _
        (Or.inr (statusStep_cancelled_true st b h))

lemma statusFold_cancelled_iff (l : List Bool) :
    (l.foldl statusStep ⟨0, false⟩).cancelled = true ↔ ∃ b ∈ l, b = true := by
  constructor
  · intro h
    by_contra hne
    have hall : ∀ b ∈ l, b = false := by
      intro b hb
      cases b
      · rfl
      · exact absurd ⟨true, hb, rfl⟩ hne
    rw [statusFold_all_false l hall] at h
    exact absurd h (by simp)
  · rintro ⟨b, hb, rfl⟩
    exact statusFold_cancelled_of l _ (Or.inl hb)

lemma handleStatus_reply_ok_iff (outcomes : List Bool) :
    (handleStatus true outcomes).reply = .ok ↔ ∃ b ∈ outcomes, b = true := by
  rw [← statusFold_pos_iff outcomes]
  by_cases hpos :
      0 < (outcomes.foldl statusStep ⟨0, false⟩).numSuccessRequestsToRelay
  · simp [handleStatus, hpos]
  · simp [handleStatus, hpos]

lemma handleStatus_reply_unavailable_iff (outcomes : List Bool) :
    (handleStatus true outcomes).reply = .serviceUnavailable ↔
      ¬∃ b ∈ outcomes, b = true := by
  rw [← statusFold_pos_iff outcomes]
  by_cases hpos :
      0 < (outcomes.foldl statusStep ⟨0, false⟩).numSuccessRequestsToRelay
  · simp [handleStatus, hpos]
  · simp [handleStatus, hpos]

lemma drain_ok_iff : ∀ (l : List (Option String)),
    (drainRegisterResponses l).1 = .ok ↔ ∃ e ∈ l, e = none
  | [] => by simp [drainRegisterResponses]
  | none :: rest => by simp [drainRegisterResponses]
  | some s :: rest => by simp [drainRegisterResponses, drain_ok_iff rest]

lemma drain_badGateway_iff : ∀ (l : List (Option String)),
    (drainRegisterResponses l).1 = .badGateway ↔ ∀ e ∈ l, e ≠ none
  | [] => by simp [drainRegisterResponses]
  | none :: rest => by simp [drainRegisterResponses]
  | some s :: rest => by simp [drainRegisterResponses, drain_badGateway_iff rest]

lemma drain_first_none : ∀ (pre rest : List (Option String)),
    (∀ e ∈ pre, e ≠ none) →
    drainRegisterResponses (pre ++ none :: rest) = (.ok, pre.length + 1)
  | [], rest, _ => by simp [drainRegisterResponses]
  | none :: pre, rest, h => absurd rfl (h none (List.mem_cons_self ..))
  | some s :: pre, rest, h => by
    have ih := drain_first_none pre rest (fun x hx => h x (List.mem_cons_of_mem _ hx))
    simp [drainRegisterResponses, ih]

lemma payloadStep_cancelled (requestBlockHash : Hash) (st : PayloadState)
    (t : PayloadTask) (h : st.cancelled = true) :
    payloadStep requestBlockHash st t = st := by
  unfold payloadStep
  repeat (split <;> try rfl)

lemma payloadFold_frozen (requestBlockHash : Hash) :
    ∀ (l : List PayloadTask) (st : PayloadState), st.cancelled = true →
    l.foldl (payloadStep requestBlockHash) st = st
  | [], _, _ => rfl
  | t :: rest, st, h => by
    rw [List.foldl_cons, payloadStep_cancelled requestBlockHash st t h]
    exact payloadFold_frozen requestBlockHash rest st h

lemma payloadStep_eq (requestBlockHash : Hash) (st : PayloadState)
    (t : PayloadTask) :
    payloadStep requestBlockHash st t =
      match payloadTaskPass requestBlockHash t with
      | none => st
      | some rp => if st.cancelled = true then st else ⟨rp, true⟩ := by
  rcases t with ⟨relay, _ | rp⟩
  · rfl
  · rcases hrp : rp.data with _ | data
    · simp [payloadStep, payloadTaskPass, hrp]
    · by_cases h1 : data.blockHash = nilHash
      · simp [payloadStep, payloadTaskPass, hrp, h1]
      · by_cases h2 : requestBlockHash ≠ data.blockHash
        · simp [payloadStep, payloadTaskPass, hrp, h1, h2]
        · simp [payloadStep, payloadTaskPass, hrp, h1, h2]

lemma payloadFold_first_pass (requestBlockHash : Hash) :
    ∀ (tasks : List PayloadTask),
    tasks.foldl (payloadStep requestBlockHash) ⟨GetPayloadResponse.empty, false⟩ =
      match (tasks.filterMap (payloadTaskPass requestBlockHash)).head? with
      | none => ⟨GetPayloadResponse.empty, false⟩
      | some rp => ⟨rp, true⟩
  | [] => rfl
  | t :: rest => by
    rw [List.foldl_cons, payloadStep_eq]
    rcases hp : payloadTaskPass requestBlockHash t with _ | rp
    · simp only [List.filterMap_cons, hp]
      exact payloadFold_first_pass requestBlockHash rest
    · simp only [List.filterMap_cons, hp, List.head?_cons]
      exact payloadFold_frozen requestBlockHash rest ⟨rp, true⟩ rfl

lemma payloadTaskPass_char (requestBlockHash : Hash) (t : PayloadTask)
    (rp : GetPayloadResponse)
    (h : payloadTaskPass requestBlockHash t = some rp) :
    t.outcome = some rp ∧
      ∃ data, rp.data = some data ∧
        data.blockHash = requestBlockHash ∧ data.blockHash ≠ nilHash := by
  unfold payloadTaskPass at h
  repeat (split at h <;> try exact Option.noConfusion h)
  rw [Option.some_inj] at h
  subst h
  aesop

lemma auctionStep_relays (now : Nat) (st : AuctionState)
    (rb : RelayEntry × GetHeaderResponse) (h : Hash) :
    (auctionStep now st rb).relays h =
      if h = respBlockHash rb.2 then st.relays h ++ [rb.1.str] else st.relays h := by
  unfold auctionStep
  split <;> rfl

lemma auctionStep_result (now : Nat) (st : AuctionState)
    (rb : RelayEntry × GetHeaderResponse) :
    (auctionStep now st rb).result =
      if st.result.response.data.isSome ∧ respValue rb.2 ≤ respValue st.result.response
      then st.result
      else { st.result with
             response := rb.2, blockHash := respBlockHash rb.2, t := now } := by
  by_cases hc : st.result.response.data.isSome ∧
      respValue rb.2 ≤ respValue st.result.response
  · simp [auctionStep, hc]
  · simp [auctionStep, hc]

lemma runAuction_append_singleton (now : Nat)
    (l : List (RelayEntry × GetHeaderResponse))
    (b : RelayEntry × GetHeaderResponse) :
    runAuction now (l ++ [b]) = auctionStep now (runAuction now l) b := by
  unfold runAuction
  rw [List.foldl_append, List.foldl_cons, List.foldl_nil]

lemma runAuction_relays (now : Nat) (accepted : List (RelayEntry × GetHeaderResponse))
    (h : Hash) :
    (runAuction now accepted).relays h =
      (accepted.filter (fun rb => respBlockHash rb.2 == h)).map (fun rb => rb.1.str) := by
  induction accepted using List.reverseRecOn with
  | nil => rfl
  | append_singleton l b ih =>
    rw [runAuction_append_singleton, auctionStep_relays, ih,
      List.filter_append, List.map_append]
    by_cases hb : h = respBlockHash b.2
    · rw [if_pos hb]
      simp [List.filter_cons, hb]
    · rw [if_neg hb]
      have : (respBlockHash b.2 == h) = false := by
        simpa using fun he => hb he.symm
      simp [List.filter_cons, this]

lemma runAuction_best (now : Nat) :
    ∀ (accepted : List (RelayEntry × GetHeaderResponse)),
    (∀ rb ∈ accepted, rb.2.data.isSome = true) → accepted ≠ [] →
    ∃ i, ∃ _ : i < accepted.length,
      (runAuction now accepted).result.response = (accepted[i]).2 ∧
      (runAuction now accepted).result.blockHash = respBlockHash (accepted[i]).2 ∧
      (∀ j (_ : j < accepted.length),
        respValue (accepted[j]).2 ≤ respValue (accepted[i]).2) ∧
      (∀ j (_ : j < accepted.length), j < i →
        respValue (accepted[j]).2 < respValue (accepted[i]).2) := by
  intro accepted
  induction accepted using List.reverseRecOn with
  | nil => exact fun _ hne => absurd rfl hne
  | append_singleton l b ih =>
    intro hwf _
    have hlenb : (l ++ [b]).length = l.length + 1 := by simp
    have hgetb : ∀ (w : l.length < (l ++ [b]).length), (l ++ [b])[l.length] = b := by
      intro w
      simp
    rcases eq_or_ne l [] with rfl | hl
    · -- the first accepted bid always replaces the zero-valued result
      have hcond : ¬((runAuction now
            ([] : List (RelayEntry × GetHeaderResponse))).result.response.data.isSome ∧
          respValue b.2 ≤ respValue (runAuction now []).result.response) := by
        rintro ⟨hs, _⟩
        simp [runAuction, initAuctionState, bidResp.empty, GetHeaderResponse.empty] at hs
      refine ⟨0, by simp, ?_, ?_, ?_, ?_⟩
      · rw [runAuction_append_singleton, auctionStep_result, if_neg hcond]
        simp
      · rw [runAuction_append_singleton, auctionStep_result, if_neg hcond]
        simp
      · intro j hj
        have hj0 : j = 0 := by
          simp at hj
          omega
        subst hj0
        exact le_refl _
      · intro j hj hj0
        exact absurd hj0 (Nat.not_lt_zero j)
    · have hwl : ∀ rb ∈ l, rb.2.data.isSome = true :=
        fun rb hrb => hwf rb (List.mem_append_left _ hrb)
      obtain ⟨i, hi, hresp, hbh, hmax, hfirst⟩ := ih hwl hl
      have hgeti : ∀ (w : i < (l ++ [b]).length), (l ++ [b])[i] = l[i] :=
        fun w => List.getElem_append_left hi
      have hgetj : ∀ j (hj : j < l.length) (w : j < (l ++ [b]).length),
          (l ++ [b])[j] = l[j] :=
        fun j hj w => List.getElem_append_left hj
      have hisw : (l[i]).2.data.isSome = true :=
        hwl (l[i]) (List.getElem_mem hi)
      by_cases hle : respValue b.2 ≤ respValue (l[i]).2
      · -- the new bid does not beat the current best: result unchanged
        have hcond : (runAuction now l).result.response.data.isSome ∧
            respValue b.2 ≤ respValue (runAuction now l).result.response := by
          rw [hresp]
          exact ⟨hisw, hle⟩
        have hilt : i < (l ++ [b]).length := by omega
        refine ⟨i, hilt, ?_, ?_, ?_, ?_⟩
        · rw [runAuction_append_singleton, auctionStep_result, if_pos hcond,
            hresp, hgeti hilt]
        · rw [runAuction_append_singleton, auctionStep_result, if_pos hcond,
            hbh, hgeti hilt]
        · intro j hj
          rw [hgeti hilt]
          rcases Nat.lt_succ_iff_lt_or_eq.mp (hlenb ▸ hj) with hjl | hjl
          · rw [hgetj j hjl hj]
            exact hmax j hjl
          · subst hjl
            rw [hgetb hj]
            exact hle
        · intro j hj hji
          rw [hgeti hilt]
          have hjl : j < l.length := by omega
          rw [hgetj j hjl hj]
          exact hfirst j hjl hji
      · -- strictly greater value: the new bid becomes the best
        have hlt : respValue (l[i]).2 < respValue b.2 := Nat.lt_of_not_le hle
        have hcond : ¬((runAuction now l).result.response.data.isSome ∧
            respValue b.2 ≤ respValue (runAuction now l).result.response) := by
          rintro ⟨_, hle2⟩
          rw [hresp] at hle2
          exact hle hle2
        have hblt : l.length < (l ++ [b]).length := by omega
        refine ⟨l.length, hblt, ?_, ?_, ?_, ?_⟩
        · rw [runAuction_append_singleton, auctionStep_result, if_neg hcond,
            hgetb hblt]
        · rw [runAuction_append_singleton, auctionStep_result, if_neg hcond,
            hgetb hblt]
        · intro j hj
          rw [hgetb hblt]
          rcases Nat.lt_succ_iff_lt_or_eq.mp (hlenb ▸ hj) with hjl | hjl
          · rw [hgetj j hjl hj]
            exact le_of_lt (lt_of_le_of_lt (hmax j hjl) hlt)
          · subst hjl
            rw [hgetb hj]
        · intro j hj hji
          rw [hgetb hblt]
          have hjl : j < l.length := by omega
          rw [hgetj j hjl hj]
          exact lt_of_le_of_lt (hmax j hjl) hlt

lemma acceptedBids_isSome (verify : VerifyFn) (domain : Domain)
    (parentHashHex : String) (tasks : List HeaderTask) :
    ∀ rb ∈ acceptedBids verify domain parentHashHex tasks,
      rb.2.data.isSome = true := by
  intro rb hrb
  obtain ⟨t, _, hp⟩ := mem_acceptedBids.mp hrb
  obtain ⟨_, data, _, _, h1, _⟩ :=
    processHeaderTask_char verify domain parentHashHex t rb.1 rb.2 hp
  rw [h1]
  rfl

lemma handleGetHeader_ok (verify : VerifyFn) (domain : Domain) (now s : Nat)
    (slot parentHashHex pubkey : String) (tasks : List HeaderTask)
    (bids : BidCache)
    (hslot : parseUint64 slot = some s)
    (hpubkey : pubkey.length = 98) (hhash : parentHashHex.length = 66)
    (hbh : (runAuction now (acceptedBids verify domain parentHashHex tasks)).result.blockHash ≠ "") :
    handleGetHeader verify domain now slot parentHashHex pubkey tasks bids =
      ⟨.ok (runAuction now (acceptedBids verify domain parentHashHex tasks)).result.response,
       bids.store
         ⟨s, (runAuction now (acceptedBids verify domain parentHashHex tasks)).result.blockHash⟩
         { (runAuction now (acceptedBids verify domain parentHashHex tasks)).result with
           relays := (runAuction now (acceptedBids verify domain parentHashHex tasks)).relays
             (runAuction now (acceptedBids verify domain parentHashHex tasks)).result.blockHash },
       tasks.map (·.relay)⟩ := by
  simp only [handleGetHeader, hslot]
  rw [if_neg (by simp [hpubkey]), if_neg (by simp [hhash]), if_neg hbh]

lemma checkRelays_true_iff : ∀ (l : List Bool),
    (CheckRelays l).1 = true ↔ ∀ b ∈ l, b = true
  | [] => by simp [CheckRelays]
  | false :: rest => by simp [CheckRelays]
  | true :: rest => by simp [CheckRelays, checkRelays_true_iff rest]

lemma checkRelays_first_failure : ∀ (pre rest : List Bool),
    (∀ b ∈ pre, b = true) →
    CheckRelays (pre ++ false :: rest) = (false, pre.length + 1)
  | [], rest, _ => by simp [CheckRelays]
  | b :: pre, rest, h => by
    have hb : b = true := h b (List.mem_cons_self ..)
    subst hb
    have ih := checkRelays_first_failure pre rest
      (fun x hx => h x (List.mem_cons_of_mem _ hx))
    simp [CheckRelays, ih]

/-! ## Claims -/

/-- **C2.** Every bid that enters the selection critical section of
`handleGetHeader` has passed all acceptance checks: its message pubkey
equals the relay descriptor's public key, its BLS signature verifies over
the message under the builder signing domain and the relay's public key,
its header's parent hash equals the request's parent hash, and it has
neither value 0 nor the empty-transaction-list sentinel as transactions
root. -/
theorem getHeader_accepted_bid_passed_all_checks
    (verify : VerifyFn) (domain : Domain) (parentHashHex : String)
    (tasks : List HeaderTask) (relay : RelayEntry) (rp : GetHeaderResponse)
    (h : (relay, rp) ∈ acceptedBids verify domain parentHashHex tasks) :
    ∃ t, t ∈ tasks ∧ relay = t.relay ∧
      ∃ data message header,
        rp.data = some data ∧ data.message = some message ∧
        message.header = some header ∧
        message.pubkey = t.relay.publicKey ∧
        verify message domain t.relay.publicKey data.signature = some true ∧
        header.parentHash = parentHashHex ∧
        message.value ≠ 0 ∧
        header.transactionsRoot ≠ emptyTxRoot := by
  obtain ⟨t, ht, hp⟩ := mem_acceptedBids.mp h
  obtain ⟨hrel, data, message, header, h1, h2, h3, _, h5, h6, h7, h8, h9⟩ :=
    processHeaderTask_char verify domain parentHashHex t relay rp hp
  exact ⟨t, ht, hrel, data, message, header, h1, h2, h3, h5, h6, h7, h8, h9⟩

/-- **C6.** The bid-cache sweeper runs every minute; each sweep removes
exactly those entries whose stored time is older than the 3-minute
retention window (the sweep period times three), so no entry older than
the window survives a sweep.  Store, load and the sweeper act atomically
on the cache state. -/
theorem bidCache_sweep_retention (now : Nat) (c : BidCache) :
    bidCacheSweepInterval = 60 ∧
    bidCacheRetention = 3 * bidCacheSweepInterval ∧
    (∀ k v, bidCacheSweep now c k = some v ↔
      c k = some v ∧ ¬(now - v.t > bidCacheRetention)) ∧
    (∀ k v, c k = some v → now - v.t > bidCacheRetention →
      bidCacheSweep now c k = none) := by
  refine ⟨rfl, rfl, ?_, ?_⟩
  · intro k v
    constructor
    · intro h
      unfold bidCacheSweep at h
      split at h
      · exact Option.noConfusion h
      · rename_i v0 hv0
        split at h
        · exact Option.noConfusion h
        · rename_i hage
          rw [Option.some_inj] at h
          subst h
          exact ⟨hv0, hage⟩
    · rintro ⟨h1, h2⟩
      unfold bidCacheSweep
      rw [h1]
      simp [h2]
  · intro k v h1 h2
    unfold bidCacheSweep
    rw [h1]
    simp [h2]

/-- Witness for C6: in the concrete cache, the record stored at time 10
survives a sweep at time 100 (age 90 ≤ 180) and is removed by a sweep at
time 300 (age 290 > 180). -/
theorem bidCache_sweep_retention_witness :
    bidCacheSweep 100 exCache42 ⟨42, "0xb1"⟩ = some exRecord ∧
    bidCacheSweep 300 exCache42 ⟨42, "0xb1"⟩ = none :=
  ⟨((bidCache_sweep_retention 100 exCache42).2.2.1 ⟨42, "0xb1"⟩ exRecord).mpr
      ⟨by decide, by decide⟩,
   (bidCache_sweep_retention 300 exCache42).2.2.2 ⟨42, "0xb1"⟩ exRecord
      (by decide) (by decide)⟩

/-- Counterexample to **C7** as stated: with relay 1 returning 2xx first
and relay 2 then failing under the already cancelled shared context,
exactly one relay produced a 2xx response, yet the success counter ends
at 2 — the counter is not incremented only on the first 2xx. -/
theorem handleStatus_counter_counterexample :
    (handleStatus true [true, false]).numSuccessRequestsToRelay = 2 ∧
    [true, false].count true = 1 := by decide

/-- **C7 (amended).** If `relay_check` is disabled, `handleStatus`
replies success immediately without fanning out to any relay.  If
enabled, the counter is incremented on every 2xx response and also by
tasks that fail after the shared context has been cancelled; the first
2xx cancels the shared context; after all tasks complete the handler
replies success iff the counter is positive, which holds iff at least
one relay returned 2xx, and 503 otherwise. -/
theorem handleStatus_spec (relayCheck : Bool) (outcomes : List Bool) :
    (relayCheck = false → handleStatus relayCheck outcomes = ⟨.ok, false, 0⟩) ∧
    (relayCheck = true →
      (handleStatus relayCheck outcomes).fannedOut = true ∧
      ((handleStatus relayCheck outcomes).reply = .ok ↔ ∃ b ∈ outcomes, b = true) ∧
      ((handleStatus relayCheck outcomes).reply = .serviceUnavailable ↔
        ¬∃ b ∈ outcomes, b = true) ∧
      ((outcomes.foldl statusStep ⟨0, false⟩).cancelled = true ↔
        ∃ b ∈ outcomes, b = true)) := by
  constructor
  · intro h
    subst h
    rfl
  · intro h
    subst h
    refine ⟨?_, handleStatus_reply_ok_iff outcomes,
      handleStatus_reply_unavailable_iff outcomes,
      statusFold_cancelled_iff outcomes⟩
    by_cases hpos :
        0 < (outcomes.foldl statusStep ⟨0, false⟩).numSuccessRequestsToRelay
    · simp [handleStatus, hpos]
    · simp [handleStatus, hpos]

/-- Witness for C7: a disabled check replies success without fan-out; an
enabled check with one failing and one succeeding relay replies
success. -/
theorem handleStatus_spec_witness :
    handleStatus false [true] = ⟨.ok, false, 0⟩ ∧
    (handleStatus true [false, true]).reply = .ok :=
  ⟨(handleStatus_spec false [true]).1 rfl,
   (((handleStatus_spec true [false, true]).2 rfl).2.1).mpr
     ⟨true, by simp, rfl⟩⟩

/-- **C8.** `handleRegisterValidator` gives each relay task a slot in a
channel sized to the number of relays; it replies 200 as soon as a
received error is nil (draining only up to that point), replies 502 when
every relay reported an error, and each task runs under the
non-cancellable background context, so pending registrations are never
cancelled on a peer's first success. -/
theorem registerValidator_spec (relays : List RelayEntry)
    (outcomes : List (Option String))
    (hlen : outcomes.length = relays.length) :
    relayRespChCapacity relays = relays.length ∧
    registerValidatorTaskCtx = Ctx.background ∧
    (handleRegisterValidator outcomes = .ok ↔ ∃ e ∈ outcomes, e = none) ∧
    (handleRegisterValidator outcomes = .badGateway ↔ ∀ e ∈ outcomes, e ≠ none) ∧
    (∀ pre rest, outcomes = pre ++ none :: rest → (∀ e ∈ pre, e ≠ none) →
      drainRegisterResponses outcomes = (.ok, pre.length + 1)) := by
  refine ⟨rfl, rfl, drain_ok_iff outcomes, drain_badGateway_iff outcomes, ?_⟩
  intro pre rest hsplit hpre
  subst hsplit
  exact drain_first_none pre rest hpre

/-- Witness for C8: with relay 1 erroring and relay 2 succeeding, the
handler replies 200 after draining both results. -/
theorem registerValidator_spec_witness :
    handleRegisterValidator [some "connection refused", none] = .ok ∧
    drainRegisterResponses [some "connection refused", none] = (.ok, 2) :=
  ⟨((registerValidator_spec [exRelay1, exRelay2]
        [some "connection refused", none] rfl).2.2.1).mpr ⟨none, by simp, rfl⟩,
   (registerValidator_spec [exRelay1, exRelay2]
        [some "connection refused", none] rfl).2.2.2.2
     [some "connection refused"] [] rfl (by simp)⟩

/-- **C9.** `handleGetHeader` rejects with 400 `invalid slot` a slot
string that does not parse as an unsigned 64-bit decimal; with 400
`invalid pubkey` a (parseable-slot) request whose pubkey string is not
exactly 98 characters; and with 400 `invalid hash` a (parseable-slot,
well-shaped-pubkey) request whose parent-hash string is not exactly 66
characters.  In each case the bid cache is untouched and no relay is
contacted. -/
theorem getHeader_url_param_validation
    (verify : VerifyFn) (domain : Domain) (now : Nat)
    (slot parentHashHex pubkey : String)
    (tasks : List HeaderTask) (bids : BidCache) :
    (parseUint64 slot = none →
      handleGetHeader verify domain now slot parentHashHex pubkey tasks bids =
        ⟨.badRequest "invalid slot", bids, []⟩) ∧
    ((parseUint64 slot).isSome = true → pubkey.length ≠ 98 →
      handleGetHeader verify domain now slot parentHashHex pubkey tasks bids =
        ⟨.badRequest "invalid pubkey", bids, []⟩) ∧
    ((parseUint64 slot).isSome = true → pubkey.length = 98 →
      parentHashHex.length ≠ 66 →
      handleGetHeader verify domain now slot parentHashHex pubkey tasks bids =
        ⟨.badRequest "invalid hash", bids, []⟩) := by
  refine ⟨?_, ?_, ?_⟩
  · intro h
    simp [handleGetHeader, h]
  · intro h hp
    obtain ⟨s, hs⟩ := Option.isSome_iff_exists.mp h
    simp [handleGetHeader, hs, hp]
  · intro h hp hh
    obtain ⟨s, hs⟩ := Option.isSome_iff_exists.mp h
    simp [handleGetHeader, hs, hp, hh]

/-- Witness for C9: a non-numeric slot, a short pubkey and a short
parent hash are each rejected with the corresponding error, leaving the
cache untouched and contacting no relay. -/
theorem getHeader_url_param_validation_witness :
    handleGetHeader exVerify exDomain 0 "12a" exParentHash exPubkeyParam
        exTasks exEmptyCache = ⟨.badRequest "invalid slot", exEmptyCache, []⟩ ∧
    handleGetHeader exVerify exDomain 0 "42" exParentHash "0xtooShort"
        exTasks exEmptyCache = ⟨.badRequest "invalid pubkey", exEmptyCache, []⟩ ∧
    handleGetHeader exVerify exDomain 0 "42" "0xtooShort" exPubkeyParam
        exTasks exEmptyCache = ⟨.badRequest "invalid hash", exEmptyCache, []⟩ :=
  ⟨(getHeader_url_param_validation exVerify exDomain 0 "12a" exParentHash
      exPubkeyParam exTasks exEmptyCache).1 (by decide),
   (getHeader_url_param_validation exVerify exDomain 0 "42" exParentHash
      "0xtooShort" exTasks exEmptyCache).2.1 (by decide) (by decide),
   (getHeader_url_param_validation exVerify exDomain 0 "42" "0xtooShort"
      exPubkeyParam exTasks exEmptyCache).2.2 (by decide) (by decide) (by decide)⟩

/-- **C10.** `CheckRelays` queries the relays sequentially and returns
true iff every relay responds without error, stopping at the first
failure (having contacted only the relays up to and including it) — a
conjunctive rule, unlike the status endpoint handler, which replies
success when any single relay is reachable. -/
theorem checkRelays_conjunctive (outcomes : List Bool) :
    ((CheckRelays outcomes).1 = true ↔ ∀ b ∈ outcomes, b = true) ∧
    (∀ pre rest, outcomes = pre ++ false :: rest → (∀ b ∈ pre, b = true) →
      CheckRelays outcomes = (false, pre.length + 1)) ∧
    ((handleStatus true outcomes).reply = .ok ↔ ∃ b ∈ outcomes, b = true) := by
  refine ⟨checkRelays_true_iff outcomes, ?_, handleStatus_reply_ok_iff outcomes⟩
  intro pre rest hsplit hpre
  subst hsplit
  exact checkRelays_first_failure pre rest hpre

/-- Witness for C10: with relay 1 reachable and relay 2 down,
`CheckRelays` fails after contacting both while the status handler
succeeds. -/
theorem checkRelays_conjunctive_witness :
    CheckRelays [true, false] = (false, 2) ∧
    (handleStatus true [true, false]).reply = .ok :=
  ⟨(checkRelays_conjunctive [true, false]).2.1 [true] [] rfl (by simp),
   ((checkRelays_conjunctive [true, false]).2.2).mpr ⟨true, by simp, rfl⟩⟩

/-- **C1.** In `handleGetHeader`, for every auction with at least one
accepted bid, the bid returned to the proposer has the highest value
among all accepted bids and is the first-arrived among those attaining
it: every earlier-arrived accepted bid has strictly smaller value, so an
equal-value later arrival never displaces it. -/
theorem getHeader_returns_best_bid (verify : VerifyFn) (domain : Domain)
    (now s : Nat) (slot parentHashHex pubkey : String)
    (tasks : List HeaderTask) (bids : BidCache)
    (hslot : parseUint64 slot = some s)
    (hpubkey : pubkey.length = 98) (hhash : parentHashHex.length = 66)
    (hwf : ∀ rb ∈ acceptedBids verify domain parentHashHex tasks,
      respBlockHash rb.2 ≠ "")
    (hne : acceptedBids verify domain parentHashHex tasks ≠ []) :
    ∃ i, ∃ _ : i < (acceptedBids verify domain parentHashHex tasks).length,
      (handleGetHeader verify domain now slot parentHashHex pubkey tasks bids).reply =
        .ok ((acceptedBids verify domain parentHashHex tasks)[i]).2 ∧
      (∀ j (_ : j < (acceptedBids verify domain parentHashHex tasks).length),
        respValue ((acceptedBids verify domain parentHashHex tasks)[j]).2 ≤
          respValue ((acceptedBids verify domain parentHashHex tasks)[i]).2) ∧
      (∀ j (_ : j < (acceptedBids verify domain parentHashHex tasks).length), j < i →
        respValue ((acceptedBids verify domain parentHashHex tasks)[j]).2 <
          respValue ((acceptedBids verify domain parentHashHex tasks)[i]).2) := by
  obtain ⟨i, hi, hresp, hbh, hmax, hfirst⟩ :=
    runAuction_best now (acceptedBids verify domain parentHashHex tasks)
      (acceptedBids_isSome verify domain parentHashHex tasks) hne
  have hne2 : (runAuction now (acceptedBids verify domain parentHashHex tasks)).result.blockHash ≠ "" := by
    rw [hbh]
    exact hwf ((acceptedBids verify domain parentHashHex tasks)[i]) (List.getElem_mem hi)
  rw [handleGetHeader_ok verify domain now s slot parentHashHex pubkey tasks bids
    hslot hpubkey hhash hne2]
  exact ⟨i, hi, by simp [hresp], hmax, hfirst⟩

/-- Witness for C1: in the concrete two-relay auction (values 1 and 2),
the handler returns relay 2's value-2 bid, the maximum. -/
theorem getHeader_returns_best_bid_witness :
    ∃ i, ∃ _ : i < (acceptedBids exVerify exDomain exParentHash exTasks).length,
      (handleGetHeader exVerify exDomain 7 "42" exParentHash exPubkeyParam
          exTasks exEmptyCache).reply =
        .ok ((acceptedBids exVerify exDomain exParentHash exTasks)[i]).2 ∧
      (∀ j (_ : j < (acceptedBids exVerify exDomain exParentHash exTasks).length),
        respValue ((acceptedBids exVerify exDomain exParentHash exTasks)[j]).2 ≤
          respValue ((acceptedBids exVerify exDomain exParentHash exTasks)[i]).2) ∧
      (∀ j (_ : j < (acceptedBids exVerify exDomain exParentHash exTasks).length), j < i →
        respValue ((acceptedBids exVerify exDomain exParentHash exTasks)[j]).2 <
          respValue ((acceptedBids exVerify exDomain exParentHash exTasks)[i]).2) :=
  getHeader_returns_best_bid exVerify exDomain 7 42 "42" exParentHash
    exPubkeyParam exTasks exEmptyCache (by decide) (by decide) (by decide)
    (by decide) (by decide)

/-- **C3.** For every completed `handleGetHeader` auction at slot `s`:
with no accepted bid the handler replies 204 and leaves the bid cache
unchanged; otherwise it returns the best accepted bid with block hash
`H = record.blockHash` and stores exactly one bid-cache entry, at key
`(s, H)`, leaving every other key unchanged; the stored record's relays
list is exactly the relays that delivered an accepted bid with block
hash `H` during this auction, in arrival order. -/
theorem getHeader_roundtrip (verify : VerifyFn) (domain : Domain)
    (now s : Nat) (slot parentHashHex pubkey : String)
    (tasks : List HeaderTask) (bids : BidCache)
    (hslot : parseUint64 slot = some s)
    (hpubkey : pubkey.length = 98) (hhash : parentHashHex.length = 66)
    (hwf : ∀ rb ∈ acceptedBids verify domain parentHashHex tasks,
      respBlockHash rb.2 ≠ "") :
    (acceptedBids verify domain parentHashHex tasks = [] →
      (handleGetHeader verify domain now slot parentHashHex pubkey tasks bids).reply =
        .noContent ∧
      (handleGetHeader verify domain now slot parentHashHex pubkey tasks bids).bids =
        bids) ∧
    (acceptedBids verify domain parentHashHex tasks ≠ [] →
      ∃ record : bidResp,
        (handleGetHeader verify domain now slot parentHashHex pubkey tasks bids).reply =
          .ok record.response ∧
        (handleGetHeader verify domain now slot parentHashHex pubkey tasks bids).bids
          ⟨s, record.blockHash⟩ = some record ∧
        (∀ k, k ≠ ⟨s, record.blockHash⟩ →
          (handleGetHeader verify domain now slot parentHashHex pubkey tasks bids).bids k =
            bids k) ∧
        record.relays =
          ((acceptedBids verify domain parentHashHex tasks).filter
            (fun rb => respBlockHash rb.2 == record.blockHash)).map (fun rb => rb.1.str) ∧
        (∃ rb, rb ∈ acceptedBids verify domain parentHashHex tasks ∧
          record.response = rb.2 ∧ record.blockHash = respBlockHash rb.2) ∧
        (∀ rb, rb ∈ acceptedBids verify domain parentHashHex tasks →
          respValue rb.2 ≤ respValue record.response)) := by
  constructor
  · intro hemp
    constructor
    · simp [handleGetHeader, hslot, hemp, hpubkey, hhash, runAuction,
        initAuctionState, bidResp.empty]
    · simp [handleGetHeader, hslot, hemp, hpubkey, hhash, runAuction,
        initAuctionState, bidResp.empty]
  · intro hne
    obtain ⟨i, hi, hresp, hbh, hmax, _⟩ :=
      runAuction_best now (acceptedBids verify domain parentHashHex tasks)
        (acceptedBids_isSome verify domain parentHashHex tasks) hne
    have hne2 : (runAuction now (acceptedBids verify domain parentHashHex tasks)).result.blockHash ≠ "" := by
      rw [hbh]
      exact hwf ((acceptedBids verify domain parentHashHex tasks)[i])
        (List.getElem_mem hi)
    rw [handleGetHeader_ok verify domain now s slot parentHashHex pubkey tasks bids
      hslot hpubkey hhash hne2]
    refine ⟨{ (runAuction now (acceptedBids verify domain parentHashHex tasks)).result with
              relays := (runAuction now (acceptedBids verify domain parentHashHex tasks)).relays
                (runAuction now (acceptedBids verify domain parentHashHex tasks)).result.blockHash },
      by simp, by simp [BidCache.store], ?_, ?_, ?_, ?_⟩
    · intro k hk
      simp [BidCache.store, hk]
    · simp only
      exact runAuction_relays now (acceptedBids verify domain parentHashHex tasks) _
    · exact ⟨(acceptedBids verify domain parentHashHex tasks)[i],
        List.getElem_mem hi, hresp, hbh⟩
    · intro rb hrb
      obtain ⟨j, hj, hrbj⟩ := List.getElem_of_mem hrb
      rw [hresp, ← hrbj]
      exact hmax j hj

/-- Witness for C3: the concrete two-relay auction at slot 42 stores a
record and returns it. -/
theorem getHeader_roundtrip_witness :
    ∃ record : bidResp,
      (handleGetHeader exVerify exDomain 7 "42" exParentHash exPubkeyParam
          exTasks exEmptyCache).reply = .ok record.response ∧
      (handleGetHeader exVerify exDomain 7 "42" exParentHash exPubkeyParam
          exTasks exEmptyCache).bids ⟨42, record.blockHash⟩ = some record ∧
      (∀ k, k ≠ ⟨42, record.blockHash⟩ →
        (handleGetHeader exVerify exDomain 7 "42" exParentHash exPubkeyParam
          exTasks exEmptyCache).bids k = exEmptyCache k) ∧
      record.relays =
        ((acceptedBids exVerify exDomain exParentHash exTasks).filter
          (fun rb => respBlockHash rb.2 == record.blockHash)).map (fun rb => rb.1.str) ∧
      (∃ rb, rb ∈ acceptedBids exVerify exDomain exParentHash exTasks ∧
        record.response = rb.2 ∧ record.blockHash = respBlockHash rb.2) ∧
      (∀ rb, rb ∈ acceptedBids exVerify exDomain exParentHash exTasks →
        respValue rb.2 ≤ respValue record.response) :=
  (getHeader_roundtrip exVerify exDomain 7 42 "42" exParentHash exPubkeyParam
    exTasks exEmptyCache (by decide) (by decide) (by decide) (by decide)).2
    (by decide)

/-- **C5.** In the get-payload race, for every interleaving (every
mutex-acquisition order of the relay tasks): the first task whose
response passes validation, acquiring the mutex while the shared context
is uncancelled, writes the shared result and cancels the context; once
the context is cancelled no task changes the shared state, so no later
task ever overwrites the winner; and when no task passes, the shared
state stays at its initial value.  The handler's reply is a function of
the state after folding every task (it waits for all of them). -/
theorem getPayload_race (requestBlockHash : Hash) (tasks : List PayloadTask) :
    (∀ rp, (tasks.filterMap (payloadTaskPass requestBlockHash)).head? = some rp →
      tasks.foldl (payloadStep requestBlockHash) ⟨GetPayloadResponse.empty, false⟩ =
        ⟨rp, true⟩) ∧
    (∀ (st : PayloadState) (rest : List PayloadTask), st.cancelled = true →
      rest.foldl (payloadStep requestBlockHash) st = st) ∧
    (tasks.filterMap (payloadTaskPass requestBlockHash) = [] →
      tasks.foldl (payloadStep requestBlockHash) ⟨GetPayloadResponse.empty, false⟩ =
        ⟨GetPayloadResponse.empty, false⟩) := by
  refine ⟨?_, fun st rest h => payloadFold_frozen requestBlockHash rest st h, ?_⟩
  · intro rp hrp
    rw [payloadFold_first_pass, hrp]
  · intro hnone
    rw [payloadFold_first_pass, hnone]
    rfl

/-- Witness for C5: with two relays both delivering the payload for
block `0xb1`, the first one in mutex order wins and the context ends
cancelled. -/
theorem getPayload_race_witness :
    [exPayloadTask1, exPayloadTask2].foldl (payloadStep "0xb1")
      ⟨GetPayloadResponse.empty, false⟩ = ⟨exPayloadResponse "0xb1", true⟩ :=
  (getPayload_race "0xb1" [exPayloadTask1, exPayloadTask2]).1
    (exPayloadResponse "0xb1") (by decide)

/-- **C4.** If some relay produced a validated payload,
`handleGetPayload` replies 200 with a payload whose block hash equals the
request's `execution_payload_header.block_hash`; if none did, it loads
the bid-cache record for `(slot, block_hash)` — a miss yielding the
neutral empty record, never an error — logs that record's contributing
relays, and replies 502. -/
theorem getPayload_reply_spec (slot : Nat) (requestBlockHash : Hash)
    (tasks : List PayloadTask) (bids : BidCache) :
    (∀ rp, (tasks.filterMap (payloadTaskPass requestBlockHash)).head? = some rp →
      handleGetPayload slot requestBlockHash tasks bids = ⟨.ok rp, none⟩ ∧
      ∃ data, rp.data = some data ∧ data.blockHash = requestBlockHash) ∧
    (tasks.filterMap (payloadTaskPass requestBlockHash) = [] →
      handleGetPayload slot requestBlockHash tasks bids =
        ⟨.badGateway, some (bids.load ⟨slot, requestBlockHash⟩).relays⟩) ∧
    (∀ k, bids k = none → bids.load k = bidResp.empty) := by
  refine ⟨?_, ?_, ?_⟩
  · intro rp hrp
    have hmem : rp ∈ tasks.filterMap (payloadTaskPass requestBlockHash) := by
      rcases hl : tasks.filterMap (payloadTaskPass requestBlockHash) with _ | ⟨rp0, rest⟩
      · rw [hl] at hrp
        exact Option.noConfusion hrp
      · rw [hl, List.head?_cons, Option.some_inj] at hrp
        subst hrp
        exact List.mem_cons_self ..
    obtain ⟨t, _, hpass⟩ := List.mem_filterMap.mp hmem
    obtain ⟨_, data, hdata, hreq, hnil⟩ :=
      payloadTaskPass_char requestBlockHash t rp hpass
    refine ⟨?_, data, hdata, hreq⟩
    unfold handleGetPayload
    rw [payloadFold_first_pass, hrp]
    simp only [hdata]
    rw [if_neg hnil]
  · intro hnone
    unfold handleGetPayload
    rw [payloadFold_first_pass, hnone]
    rfl
  · intro k h
    simp [BidCache.load, h]

/-- Witness for C4: one relay returns the payload for block `0xb1` and
the handler replies 200 with it; with no relay responding, the handler
replies 502 and logs the relays of the cached record for slot 42. -/
theorem getPayload_reply_spec_witness :
    handleGetPayload 42 "0xb1" [exPayloadTask1] exEmptyCache =
      ⟨.ok (exPayloadResponse "0xb1"), none⟩ ∧
    handleGetPayload 42 "0xb1" [] exCache42 =
      ⟨.badGateway, some ["https://relay1"]⟩ :=
  ⟨((getPayload_reply_spec 42 "0xb1" [exPayloadTask1] exEmptyCache).1
      (exPayloadResponse "0xb1") (by decide)).1,
   ((getPayload_reply_spec 42 "0xb1" [] exCache42).2.1 (by decide)).trans
      (by decide)⟩

/-- Witness for C2: in the concrete two-relay auction, relay 1's bid is
accepted, and the theorem's guarantees evaluate on it. -/
theorem getHeader_accepted_bid_passed_all_checks_witness :
    ∃ t, t ∈ exTasks ∧ exRelay1 = t.relay ∧
      ∃ data message header,
        (exResponse exRelay1.publicKey "0xb1" 1).data = some data ∧
        data.message = some message ∧
        message.header = some header ∧
        message.pubkey = t.relay.publicKey ∧
        exVerify message exDomain t.relay.publicKey data.signature = some true ∧
        header.parentHash = exParentHash ∧
        message.value ≠ 0 ∧
        header.transactionsRoot ≠ emptyTxRoot :=
  getHeader_accepted_bid_passed_all_checks exVerify exDomain exParentHash
    exTasks exRelay1 (exResponse exRelay1.publicKey "0xb1" 1) (by decide)

end MevBoost
